import Mathlib

/-!
Shallow embedding of the messages_backend service (src/main.rs).

The service keeps two SQLite tables created in `main`:
  users(id INTEGER PRIMARY KEY AUTOINCREMENT, name TEXT NOT NULL)
  messages(id INTEGER PRIMARY KEY AUTOINCREMENT, author TEXT NOT NULL,
           target TEXT NOT NULL, text TEXT NOT NULL, timestamp DATETIME NOT NULL)
Note that the `users` DDL carries no UNIQUE constraint on `name`.

The embedding models the database as explicit lists of rows threaded through
the handlers.  Row ids are assigned as one plus the maximum id in the table
(no row is ever deleted, so this coincides with SQLite AUTOINCREMENT).
`Utc::now()` is modelled by a `now` field of the state, constant during one
request.  `fetch_one` on a `SELECT ... WHERE name = ?` without ORDER BY is
modelled as the first matching row in insertion order.
-/

namespace MessagesBackend

/-- Row of the `users` table. -/
structure User where
  id : Nat
  name : String
deriving Repr, DecidableEq

/-- Row of the `messages` table: `author`/`target` hold user ids. -/
structure StoredMessage where
  id : Nat
  author : Nat
  target : Nat
  text : String
  timestamp : Int
deriving Repr, DecidableEq

/-- Joined row as fetched by `query_as::<Message>`: `author`/`target` are the
display names produced by the two INNER JOINs against `users`. -/
structure Message where
  id : Nat
  author : String
  target : String
  text : String
  timestamp : Int
deriving Repr, DecidableEq

/-- Response record: the timestamp has been rendered to a display string. -/
structure OutgoingMessage where
  id : Nat
  author : String
  target : String
  text : String
  timestamp : String
deriving Repr, DecidableEq

/-- Request payload of POST /send. -/
structure IncomingMessage where
  author : String
  target : String
  text : String
deriving Repr, DecidableEq

/-- Database state plus the request-time clock (`Utc::now()`), in seconds
since the Unix epoch. -/
structure DbState where
  users : List User
  messages : List StoredMessage
  now : Int
deriving Repr, DecidableEq

/-- Errors of the store layer (`sqlx::Error`): a missing row from
`fetch_one`, or a connection/IO failure. -/
inductive SqlxError where
  | rowNotFound
  | ioError
deriving Repr, DecidableEq

/-- HTTP status codes used by the handlers. -/
inductive StatusCode where
  | ok
  | notFound
  | internalServerError
deriving Repr, DecidableEq

/-- Error response of a handler: a status code and a message string. -/
abbrev ErrResp := StatusCode × String

/-! ### Timestamp formatting (`From<Message> for OutgoingMessage`)

The code converts the stored UTC instant with
`with_timezone(&FixedOffset::west(5 * 3600))` and renders it with the chrono
format string `"%_m/%_d/%Y %_I:%M%p"`: month, day and 12-hour clock hour are
space-padded to two characters (`%_` pads with spaces), the minute is
zero-padded (`%M`), and `%p` prints `AM`/`PM` in upper case. -/

/-- Civil date from a day count relative to 1970-01-01 (proleptic Gregorian
calendar, the conversion used by chrono): year, month, day. -/
def civilFromDays (z0 : Int) : Int × Nat × Nat :=
  let z : Int := z0 + 719468
  let era : Int := z / 146097
  let doe : Nat := (z - era * 146097).toNat
  let yoe : Nat := (doe - doe / 1460 + doe / 36524 - doe / 146096) / 365
  let doy : Nat := doe - (365 * yoe + yoe / 4 - yoe / 100)
  let mp : Nat := (5 * doy + 2) / 153
  let d : Nat := doy - (153 * mp + 2) / 5 + 1
  let m : Nat := if mp < 10 then mp + 3 else mp - 9
  let y : Int := (yoe : Int) + era * 400 + (if m ≤ 2 then 1 else 0)
  (y, m, d)

/-- Pad a number with spaces on the left to width two (chrono `%_` flag). -/
def padSpace2 (n : Nat) : String :=
  if n < 10 then " " ++ toString n else toString n

/-- Pad a number with zeros on the left to width two (chrono default flag). -/
def padZero2 (n : Nat) : String :=
  if n < 10 then "0" ++ toString n else toString n

/-- Render a year as chrono `%Y` does: zero-padded to four digits. -/
def yearString (y : Int) : String :=
  if y < 0 then
    "-" ++ toString (-y)
  else if y.toNat < 10 then "000" ++ toString y.toNat
  else if y.toNat < 100 then "00" ++ toString y.toNat
  else if y.toNat < 1000 then "0" ++ toString y.toNat
  else toString y.toNat

/-- Seconds within the display day after shifting to the UTC−5 offset. -/
def shiftedSecsOfDay (t : Int) : Nat := ((t - 5 * 3600) % 86400).toNat

/-- Day count of the shifted instant relative to the epoch. -/
def shiftedDays (t : Int) : Int := (t - 5 * 3600) / 86400

/-- The 24-hour clock hour of the shifted instant. -/
def hour24 (t : Int) : Nat := shiftedSecsOfDay t / 3600

/-- The minute of the shifted instant. -/
def minuteOf (t : Int) : Nat := shiftedSecsOfDay t % 3600 / 60

/-- The 12-hour clock hour of the shifted instant (chrono `%I`: 1–12). -/
def hour12 (t : Int) : Nat :=
  if hour24 t % 12 = 0 then 12 else hour24 t % 12

/-- Embedding of the timestamp rendering in `From<Message> for
OutgoingMessage`: shift to `FixedOffset::west(5 * 3600)` and format with
`"%_m/%_d/%Y %_I:%M%p"`. -/
def formatTimestamp (t : Int) : String :=
  let c := civilFromDays (shiftedDays t)
  padSpace2 c.2.1 ++ "/" ++ padSpace2 c.2.2 ++ "/" ++ yearString c.1 ++ " " ++
    padSpace2 (hour12 t) ++ ":" ++ padZero2 (minuteOf t) ++
    (if hour24 t < 12 then "AM" else "PM")

/-- Embedding of `From<Message> for OutgoingMessage`. -/
def toOutgoing (m : Message) : OutgoingMessage :=
  ⟨m.id, m.author, m.target, m.text, formatTimestamp m.timestamp⟩

/-! ### Directory operations -/

/-- Largest id present in the `users` table (0 when empty). -/
def maxUserId (us : List User) : Nat :=
  us.foldr (fun u acc => max u.id acc) 0

/-- Id assigned to the next inserted user row (AUTOINCREMENT; no row is ever
deleted). -/
def nextUserId (us : List User) : Nat := maxUserId us + 1

/-- Largest id present in the `messages` table (0 when empty). -/
def maxMessageId (ms : List StoredMessage) : Nat :=
  ms.foldr (fun m acc => max m.id acc) 0

/-- Id assigned to the next inserted message row. -/
def nextMessageId (ms : List StoredMessage) : Nat := maxMessageId ms + 1

/-- Embedding of `create_user`: `INSERT INTO users (name) VALUES (?)`.
The schema has no UNIQUE constraint on `name`, so the insert succeeds
regardless of existing rows. -/
def create_user (name : String) (s : DbState) : DbState :=
  { s with users := s.users ++ [⟨nextUserId s.users, name⟩] }

/-- Embedding of `get_user`: `SELECT * FROM users WHERE name = ?` with
`fetch_one`, i.e. the first matching row, `RowNotFound` when absent. -/
def get_user (name : String) (s : DbState) : Option User :=
  s.users.find? (fun u => u.name = name)

/-- Embedding of `get_or_create_user`: look the name up; on any lookup
error insert a row with that name and return the result of a re-lookup. -/
def get_or_create_user (name : String) (s : DbState) :
    Except SqlxError User × DbState :=
  match get_user name s with
  | some u => (Except.ok u, s)
  | none =>
    let s1 := create_user name s
    match get_user name s1 with
    | some u => (Except.ok u, s1)
    | none => (Except.error SqlxError.rowNotFound, s1)

/-! ### Query construction -/

/-- Rows contributed by one message to the double INNER JOIN against
`users` (`messages.author = author_id`, `messages.target = target_id`). -/
def joinedRow (us : List User) (m : StoredMessage) : List Message :=
  (us.filter (fun u => u.id == m.author)).flatMap (fun ua =>
    (us.filter (fun u => u.id == m.target)).map (fun ut =>
      ⟨m.id, ua.name, ut.name, m.text, m.timestamp⟩))

/-- The double INNER JOIN of the message rows against `users`. -/
def joinUsers (us : List User) (ms : List StoredMessage) : List Message :=
  ms.flatMap (joinedRow us)

/-- ORDER BY timestamp, modelled as a stable insertion sort. -/
def sortTs (l : List Message) : List Message :=
  List.insertionSort (fun a b => a.timestamp ≤ b.timestamp) l

/-- The SELECT of `get_inbox`: join, keep rows with `target_id = ?`,
order by timestamp. -/
def inboxQuery (s : DbState) (uid : Nat) : List Message :=
  sortTs (joinUsers s.users (s.messages.filter (fun m => m.target == uid)))

/-- The SELECT of `get_messages`: join, keep rows with
`(author_id = me AND target_id = other) OR (author_id = other AND
target_id = me)`, order by timestamp. -/
def conversationQuery (s : DbState) (meId otherId : Nat) : List Message :=
  sortTs (joinUsers s.users (s.messages.filter (fun m =>
    (m.author == meId && m.target == otherId) ||
      (m.author == otherId && m.target == meId))))

/-! ### Handlers -/

/-- Embedding of the `get_inbox` handler. -/
def get_inbox (target : String) (s : DbState) :
    Except ErrResp (List OutgoingMessage) × DbState :=
  match get_or_create_user target s with
  | (Except.error _, s1) =>
    (Except.error (StatusCode.notFound, "User not found"), s1)
  | (Except.ok u, s1) =>
    (Except.ok ((inboxQuery s1 u.id).map toOutgoing), s1)

/-- Embedding of the `get_messages` handler: resolve `me`, resolve `other`,
run the conversation query, convert rows to `OutgoingMessage`, then drop
rows with equal display names unless the two resolved ids coincide. -/
def get_messages (me other : String) (s : DbState) :
    Except ErrResp (List OutgoingMessage) × DbState :=
  match get_or_create_user me s with
  | (Except.error _, s1) =>
    (Except.error (StatusCode.notFound, "User not found"), s1)
  | (Except.ok u1, s1) =>
    match get_or_create_user other s1 with
    | (Except.error _, s2) =>
      (Except.error (StatusCode.notFound, "User not found"), s2)
    | (Except.ok u2, s2) =>
      (Except.ok (((conversationQuery s2 u1.id u2.id).map toOutgoing).filter
        (fun om => u1.id == u2.id || om.author != om.target)), s2)

/-- Embedding of the `send_message` handler: resolve both names, insert the
message with the request-time clock as timestamp, and return `StatusCode::OK`
(the stored record is logged, not returned). -/
def send_message (p : IncomingMessage) (s : DbState) :
    Except ErrResp StatusCode × DbState :=
  match get_or_create_user p.author s with
  | (Except.error _, s1) =>
    (Except.error (StatusCode.notFound, "User not found"), s1)
  | (Except.ok a, s1) =>
    match get_or_create_user p.target s1 with
    | (Except.error _, s2) =>
      (Except.error (StatusCode.notFound, "Target not found"), s2)
    | (Except.ok t, s2) =>
      (Except.ok StatusCode.ok,
        { s2 with messages := s2.messages ++
          [⟨nextMessageId s2.messages, a.id, t.id, p.text, s2.now⟩] })

/-! ### Fault-injected store layer

To reason about the error handling of `get_or_create_user`, the same three
functions are embedded once more over a state that carries a schedule of
injected store faults: each store operation consumes the head of the
schedule and, when it is `some e`, fails with `e` instead of executing. -/

/-- Database state together with a schedule of injected store faults. -/
structure FDb where
  db : DbState
  faults : List (Option SqlxError)
deriving Repr, DecidableEq

/-- Consume the next entry of the fault schedule. -/
def takeFault (f : List (Option SqlxError)) :
    Option SqlxError × List (Option SqlxError) :=
  match f with
  | [] => (none, [])
  | b :: r => (b, r)

/-- `get_user` over the fault-injected store. -/
def get_userF (name : String) (fs : FDb) : Except SqlxError User × FDb :=
  match takeFault fs.faults with
  | (some e, rest) => (Except.error e, ⟨fs.db, rest⟩)
  | (none, rest) =>
    match get_user name fs.db with
    | some u => (Except.ok u, ⟨fs.db, rest⟩)
    | none => (Except.error SqlxError.rowNotFound, ⟨fs.db, rest⟩)

/-- `create_user` over the fault-injected store. -/
def create_userF (name : String) (fs : FDb) : Except SqlxError Unit × FDb :=
  match takeFault fs.faults with
  | (some e, rest) => (Except.error e, ⟨fs.db, rest⟩)
  | (none, rest) => (Except.ok (), ⟨create_user name fs.db, rest⟩)

/-- `get_or_create_user` over the fault-injected store: `match` on the
lookup, discarding the error value; on error, `create_user(...)` followed by
`?`, then the re-lookup result (also behind `?`) is returned. -/
def get_or_create_userF (name : String) (fs : FDb) :
    Except SqlxError User × FDb :=
  match get_userF name fs with
  | (Except.ok u, fs1) => (Except.ok u, fs1)
  | (Except.error _, fs1) =>
    match create_userF name fs1 with
    | (Except.error e, fs2) => (Except.error e, fs2)
    | (Except.ok _, fs2) => get_userF name fs2

/-! ### The formatting contract as the specification words it

These definitions are NOT translated from the source; they transcribe the
specification sentence "renders it as `M/D/YYYY H:MMam|pm` with no
zero-padding on month/day/hour" (claim C3) so that the source formatter can
be compared against them. -/

/-- Specification-side formatter, exactly as claim C3 words it: fixed UTC−5
shift, `M/D/YYYY H:MMam|pm`, month/day/hour unpadded, lowercase marker. -/
def specFormatClaim (t : Int) : String :=
  let c := civilFromDays (shiftedDays t)
  toString c.2.1 ++ "/" ++ toString c.2.2 ++ "/" ++ yearString c.1 ++ " " ++
    toString (hour12 t) ++ ":" ++ padZero2 (minuteOf t) ++
    (if hour24 t < 12 then "am" else "pm")

/-- Left-pad the decimal rendering of a number with a fill character to a
given width (used by the amended wording of claim C3). -/
def padToWidth (fill : Char) (w : Nat) (n : Nat) : String :=
  let s := toString n
  String.mk (List.replicate (w - s.length) fill) ++ s

/-- Specification-side formatter as amended: fixed UTC−5 shift, fields in
the order month/day/year hour:minute marker, with month, day and hour
space-padded to width two, minute zero-padded to width two, and an
uppercase `AM`/`PM` marker. -/
def specFormatAmended (t : Int) : String :=
  let c := civilFromDays (shiftedDays t)
  padToWidth ' ' 2 c.2.1 ++ "/" ++ padToWidth ' ' 2 c.2.2 ++ "/" ++
    yearString c.1 ++ " " ++ padToWidth ' ' 2 (hour12 t) ++ ":" ++
    padToWidth '0' 2 (minuteOf t) ++
    (if hour24 t < 12 then "AM" else "PM")

/-! ### Display helpers used to state the query theorems -/

/-- Display name of the user with a given id (empty string when absent;
under the store invariant below the id is always present). -/
def userName (us : List User) (i : Nat) : String :=
  (Option.map User.name (us.find? (fun u => u.id == i))).getD ""

/-- Translation of one stored message to display names, as the double
INNER JOIN produces it when user ids are unique and present. -/
def displayMsg (us : List User) (m : StoredMessage) : Message :=
  ⟨m.id, userName us m.author, userName us m.target, m.text, m.timestamp⟩

/-- Concrete well-formed store used to instantiate hypotheses. -/
def stWit : DbState :=
  ⟨[⟨1, "alice"⟩, ⟨2, "bob"⟩],
   [⟨1, 1, 2, "hi", 10⟩, ⟨2, 2, 1, "yo", 5⟩, ⟨3, 1, 1, "memo", 7⟩], 100⟩

/-! ### Store invariant

Well-formedness of a database state, reflecting the schema that the
specification assumes: user ids are pairwise distinct (primary key) and
every message references existing users (relationship invariant of §3). -/

/-- Well-formed database state. -/
def WF (s : DbState) : Prop :=
  (s.users.map User.id).Nodup ∧
    ∀ m ∈ s.messages,
      (∃ u ∈ s.users, u.id = m.author) ∧ ∃ u ∈ s.users, u.id = m.target

instance (s : DbState) : Decidable (WF s) := by
  unfold WF; infer_instance

/-! ## Lemmas about the directory layer -/

theorem foldr_max_init (us : List User) (a : Nat) :
    us.foldr (fun u acc => max u.id acc) a = max (maxUserId us) a := by
  induction us with
  | nil => simp [maxUserId]
  | cons v tl ih =>
    show max v.id (tl.foldr (fun u acc => max u.id acc) a)
      = max (maxUserId (v :: tl)) a
    rw [ih]
    show max v.id (max (maxUserId tl) a) = max (max v.id (maxUserId tl)) a
    rw [Nat.max_assoc]

theorem maxUserId_append (us : List User) (u : User) :
    maxUserId (us ++ [u]) = max (maxUserId us) u.id := by
  show (us ++ [u]).foldr (fun v acc => max v.id acc) 0 = max (maxUserId us) u.id
  rw [List.foldr_append, List.foldr_cons, List.foldr_nil, foldr_max_init,
    Nat.max_zero]

theorem id_le_maxUserId {us : List User} {u : User} (h : u ∈ us) :
    u.id ≤ maxUserId us := by
  induction us with
  | nil => cases h
  | cons v tl ih =>
    have hstep : maxUserId (v :: tl) = max v.id (maxUserId tl) := rfl
    rcases List.mem_cons.mp h with rfl | h2
    · rw [hstep]; exact Nat.le_max_left _ _
    · rw [hstep]; exact Nat.le_trans (ih h2) (Nat.le_max_right _ _)

theorem id_lt_nextUserId {us : List User} {u : User} (h : u ∈ us) :
    u.id < nextUserId us := by
  have := id_le_maxUserId h
  unfold nextUserId
  omega

theorem nextUserId_create (n : String) (s : DbState) :
    nextUserId (create_user n s).users = nextUserId s.users + 1 := by
  unfold create_user nextUserId
  simp only
  rw [maxUserId_append]
  simp only [nextUserId]
  omega

theorem get_user_create_of_ne {n n2 : String} (hne : n ≠ n2) (s : DbState) :
    get_user n (create_user n2 s) = get_user n s := by
  unfold get_user create_user
  simp only
  rw [List.find?_append]
  have hnone : List.find? (fun u => u.name = n)
      ([⟨nextUserId s.users, n2⟩] : List User) = none := by
    simp [List.find?, Ne.symm hne]
  rw [hnone, Option.or_none]

theorem get_user_create_self (n : String) (s : DbState)
    (h : get_user n s = none) :
    get_user n (create_user n s) = some ⟨nextUserId s.users, n⟩ := by
  unfold get_user create_user
  unfold get_user at h
  simp only
  rw [List.find?_append, h]
  simp [List.find?]

theorem resolve_found {n : String} {s : DbState} {u : User}
    (h : get_user n s = some u) :
    get_or_create_user n s = (Except.ok u, s) := by
  unfold get_or_create_user
  rw [h]

theorem resolve_miss {n : String} {s : DbState} (h : get_user n s = none) :
    get_or_create_user n s =
      (Except.ok ⟨nextUserId s.users, n⟩, create_user n s) := by
  unfold get_or_create_user
  rw [h]
  simp only [get_user_create_self n s h]

theorem resolve_ok (n : String) (s : DbState) :
    ∃ u s1, get_or_create_user n s = (Except.ok u, s1) := by
  cases h : get_user n s with
  | none => exact ⟨_, _, resolve_miss h⟩
  | some u => exact ⟨_, _, resolve_found h⟩

theorem resolve_twice (n : String) (s : DbState) :
    ∃ u s1, get_or_create_user n s = (Except.ok u, s1) ∧
      get_or_create_user n s1 = (Except.ok u, s1) := by
  cases h : get_user n s with
  | some u => exact ⟨u, s, resolve_found h, resolve_found h⟩
  | none =>
    refine ⟨⟨nextUserId s.users, n⟩, create_user n s, resolve_miss h, ?_⟩
    exact resolve_found (get_user_create_self n s h)

theorem resolve_frame (n : String) (s : DbState) :
    ((get_or_create_user n s).2).messages = s.messages ∧
      ((get_or_create_user n s).2).now = s.now ∧
      ∃ l, ((get_or_create_user n s).2).users = s.users ++ l ∧
        ∀ u ∈ l, u.name = n := by
  cases h : get_user n s with
  | some u =>
    rw [resolve_found h]
    exact ⟨rfl, rfl, [], by simp, by simp⟩
  | none =>
    rw [resolve_miss h]
    refine ⟨rfl, rfl, [⟨nextUserId s.users, n⟩], rfl, ?_⟩
    intro u hu
    simp only [List.mem_singleton] at hu
    subst hu
    rfl

theorem resolve_mem_name {n : String} {s : DbState} {u : User} {s1 : DbState}
    (h : get_or_create_user n s = (Except.ok u, s1)) :
    u ∈ s1.users ∧ u.name = n := by
  cases hg : get_user n s with
  | some v =>
    rw [resolve_found hg] at h
    cases h
    have hm := List.mem_of_find?_eq_some hg
    have hp := List.find?_some hg
    simp only [decide_eq_true_eq] at hp
    exact ⟨hm, hp⟩
  | none =>
    rw [resolve_miss hg] at h
    cases h
    constructor
    · simp [create_user]
    · rfl

theorem wf_create (n : String) {s : DbState} (hwf : WF s) :
    WF (create_user n s) := by
  obtain ⟨hnd, href⟩ := hwf
  constructor
  · simp only [create_user, List.map_append, List.map_cons, List.map_nil]
    rw [List.nodup_append]
    refine ⟨hnd, List.nodup_singleton _, ?_⟩
    intro x hx hx2
    simp only [List.mem_singleton] at hx2
    subst hx2
    obtain ⟨u, hu, hid⟩ := List.mem_map.mp hx
    have := id_lt_nextUserId hu
    omega
  · intro m hm
    obtain ⟨⟨ua, hua, ha⟩, ⟨ut, hut, ht⟩⟩ := href m hm
    exact ⟨⟨ua, List.mem_append_left _ hua, ha⟩,
      ⟨ut, List.mem_append_left _ hut, ht⟩⟩

theorem wf_resolve (n : String) {s : DbState} (hwf : WF s) :
    WF ((get_or_create_user n s).2) := by
  cases h : get_user n s with
  | some u => rw [resolve_found h]; exact hwf
  | none => rw [resolve_miss h]; exact wf_create n hwf

/-! ## Lemmas about the join and the sort -/

theorem filter_id_singleton {us : List User} {a : User}
    (hnd : (us.map User.id).Nodup) (ha : a ∈ us) :
    us.filter (fun u => u.id == a.id) = [a] := by
  induction us with
  | nil => cases ha
  | cons v tl ih =>
    simp only [List.map_cons, List.nodup_cons] at hnd
    obtain ⟨hv, htl⟩ := hnd
    rcases List.mem_cons.mp ha with rfl | h2
    · rw [List.filter_cons_of_pos (by simp)]
      have : tl.filter (fun u => u.id == a.id) = [] := by
        rw [List.filter_eq_nil_iff]
        intro x hx
        simp only [beq_iff_eq]
        intro hid
        exact hv (List.mem_map.mpr ⟨x, hx, hid⟩)
      rw [this]
    · rw [List.filter_cons_of_neg, ih htl h2]
      simp only [beq_iff_eq]
      intro hid
      exact hv (List.mem_map.mpr ⟨a, h2, hid.symm⟩)

theorem find?_id_eq {us : List User} {a : User}
    (hnd : (us.map User.id).Nodup) (ha : a ∈ us) :
    us.find? (fun u => u.id == a.id) = some a := by
  induction us with
  | nil => cases ha
  | cons v tl ih =>
    simp only [List.map_cons, List.nodup_cons] at hnd
    obtain ⟨hv, htl⟩ := hnd
    rcases List.mem_cons.mp ha with rfl | h2
    · rw [List.find?_cons_of_pos _ (by simp)]
    · rw [List.find?_cons_of_neg, ih htl h2]
      simp only [beq_iff_eq]
      intro hid
      exact hv (List.mem_map.mpr ⟨a, h2, hid.symm⟩)

theorem joinedRow_eq_display {us : List User} {m : StoredMessage}
    (hnd : (us.map User.id).Nodup)
    (h1 : ∃ u ∈ us, u.id = m.author) (h2 : ∃ u ∈ us, u.id = m.target) :
    joinedRow us m = [displayMsg us m] := by
  obtain ⟨ua, hua, haid⟩ := h1
  obtain ⟨ut, hut, htid⟩ := h2
  unfold joinedRow
  rw [← haid, ← htid, filter_id_singleton hnd hua, filter_id_singleton hnd hut]
  unfold displayMsg userName
  rw [← haid, ← htid, find?_id_eq hnd hua, find?_id_eq hnd hut]
  rfl

theorem joinUsers_eq_map {us : List User} {ms : List StoredMessage}
    (hnd : (us.map User.id).Nodup)
    (href : ∀ m ∈ ms, (∃ u ∈ us, u.id = m.author) ∧ ∃ u ∈ us, u.id = m.target) :
    joinUsers us ms = ms.map (displayMsg us) := by
  induction ms with
  | nil => rfl
  | cons m tl ih =>
    obtain ⟨h1, h2⟩ := href m (List.mem_cons_self m tl)
    show joinedRow us m ++ joinUsers us tl = displayMsg us m :: tl.map (displayMsg us)
    rw [joinedRow_eq_display hnd h1 h2,
      ih (fun x hx => href x (List.mem_cons_of_mem m hx))]
    rfl

theorem sortTs_perm (l : List Message) : List.Perm (sortTs l) l :=
  List.perm_insertionSort _ l

theorem sortTs_sorted (l : List Message) :
    (sortTs l).Pairwise (fun a b => a.timestamp ≤ b.timestamp) := by
  haveI : IsTotal Message (fun a b => a.timestamp ≤ b.timestamp) :=
    ⟨fun a b => Int.le_total a.timestamp b.timestamp⟩
  haveI : IsTrans Message (fun a b => a.timestamp ≤ b.timestamp) :=
    ⟨fun a b c hab hbc => Int.le_trans hab hbc⟩
  exact List.sorted_insertionSort _ l

/-! ## Commutation of the conversation query in its two ids -/

theorem beq_nat_comm (a b : Nat) : (a == b) = (b == a) := by
  rcases Nat.decEq a b with h | h
  · have h2 : ¬b = a := fun hh => h hh.symm
    simp [h, h2]
  · simp [h]

theorem conversationQuery_comm (s : DbState) (a b : Nat) :
    conversationQuery s a b = conversationQuery s b a := by
  unfold conversationQuery
  have hp : (fun (m : StoredMessage) =>
      (m.author == a && m.target == b) || (m.author == b && m.target == a))
      = (fun m =>
      (m.author == b && m.target == a) || (m.author == a && m.target == b)) :=
    funext fun m => Bool.or_comm _ _
  rw [hp]

theorem conversation_output_comm (s : DbState) (a b : Nat) :
    ((conversationQuery s a b).map toOutgoing).filter
        (fun om => a == b || om.author != om.target)
      = ((conversationQuery s b a).map toOutgoing).filter
        (fun om => b == a || om.author != om.target) := by
  rw [conversationQuery_comm, beq_nat_comm a b]

theorem conversationQuery_fresh (s : DbState) (a b : Nat)
    (ha : ∀ m ∈ s.messages, m.author ≠ a) (hb : ∀ m ∈ s.messages, m.author ≠ b) :
    conversationQuery s a b = [] := by
  unfold conversationQuery
  have hnil : s.messages.filter (fun m =>
      (m.author == a && m.target == b) || (m.author == b && m.target == a)) = [] := by
    rw [List.filter_eq_nil_iff]
    intro m hm
    simp [ha m hm, hb m hm]
  rw [hnil]
  rfl

/-! ## Characterization of the handlers on successful resolution -/

theorem get_inbox_eq {t : String} {s : DbState} {u : User} {s1 : DbState}
    (h1 : get_or_create_user t s = (Except.ok u, s1)) :
    get_inbox t s = (Except.ok ((inboxQuery s1 u.id).map toOutgoing), s1) := by
  unfold get_inbox
  rw [h1]

theorem get_messages_eq {me other : String} {s : DbState} {u1 u2 : User}
    {s1 s2 : DbState}
    (h1 : get_or_create_user me s = (Except.ok u1, s1))
    (h2 : get_or_create_user other s1 = (Except.ok u2, s2)) :
    get_messages me other s =
      (Except.ok (((conversationQuery s2 u1.id u2.id).map toOutgoing).filter
        (fun om => u1.id == u2.id || om.author != om.target)), s2) := by
  unfold get_messages
  rw [h1]
  dsimp only
  rw [h2]

theorem send_message_eq {p : IncomingMessage} {s : DbState} {a t : User}
    {s1 s2 : DbState}
    (h1 : get_or_create_user p.author s = (Except.ok a, s1))
    (h2 : get_or_create_user p.target s1 = (Except.ok t, s2)) :
    send_message p s = (Except.ok StatusCode.ok,
      { s2 with messages := s2.messages ++
        [⟨nextMessageId s2.messages, a.id, t.id, p.text, s2.now⟩] }) := by
  unfold send_message
  rw [h1]
  dsimp only
  rw [h2]

/-! ## Bounds on the formatted calendar fields -/

theorem civil_month_lt_100 (z : Int) : (civilFromDays z).2.1 < 100 := by
  unfold civilFromDays
  dsimp only
  split <;> omega

theorem civil_day_lt_100 (z : Int) : (civilFromDays z).2.2 < 100 := by
  unfold civilFromDays
  dsimp only
  omega

theorem hour12_lt_100 (t : Int) : hour12 t < 100 := by
  unfold hour12
  split <;> omega

theorem minuteOf_lt_100 (t : Int) : minuteOf t < 100 := by
  unfold minuteOf shiftedSecsOfDay
  omega

theorem padToWidth_space_eq :
    ∀ n, n < 100 → padToWidth ' ' 2 n = padSpace2 n := by decide

theorem padToWidth_zero_eq :
    ∀ n, n < 100 → padToWidth '0' 2 n = padZero2 n := by decide

/-! ## Claim theorems -/

/-- Claim C1, counterexample: the users schema carries no UNIQUE constraint,
so `create_user` on a store that already holds a row named `alice` succeeds
and produces a second identity with the same name — the claim that "user
creation can never produce two identities for the same name" is false. -/
theorem create_user_duplicate_name :
    (create_user "alice" ⟨[⟨1, "alice"⟩], [], 0⟩).users
        = [⟨1, "alice"⟩, ⟨2, "alice"⟩] ∧
      ((create_user "alice" ⟨[⟨1, "alice"⟩], [], 0⟩).users.filter
        (fun u => u.name == "alice")).length = 2 := by
  decide

/-- Claim C1 as amended: the schema does not enforce name uniqueness, but
`get_or_create_user` preserves the de facto sequential invariant: after a
resolution of `n` the number of rows named `n` is `max 1` of what it was —
it never inserts when a row with that name already exists. -/
theorem get_or_create_name_count (n : String) (s : DbState) :
    (((get_or_create_user n s).2).users.filter (fun u => u.name == n)).length
      = max 1 ((s.users.filter (fun u => u.name == n)).length) := by
  cases h : get_user n s with
  | some u =>
    rw [resolve_found h]
    dsimp only
    unfold get_user at h
    have hm := List.mem_of_find?_eq_some h
    have hp := List.find?_some h
    simp only [decide_eq_true_eq] at hp
    have hmem : u ∈ s.users.filter (fun u => u.name == n) :=
      List.mem_filter.mpr ⟨hm, by simp [hp]⟩
    have hpos : 0 < (s.users.filter (fun u => u.name == n)).length :=
      List.length_pos.mpr (List.ne_nil_of_mem hmem)
    omega
  | none =>
    rw [resolve_miss h]
    unfold get_user at h
    have hall := List.find?_eq_none.mp h
    have hfil : s.users.filter (fun u => u.name == n) = [] := by
      rw [List.filter_eq_nil_iff]
      intro a ha
      have := hall a ha
      simp only [decide_eq_true_eq] at this
      simp [this]
    dsimp only
    unfold create_user
    dsimp only
    rw [List.filter_append, hfil]
    simp

/-- Claim C2, counterexample: on success `send_message` returns only the
constant `StatusCode.ok`.  Two stores whose clocks differ produce messages
with different stored timestamps yet identical return values, so the
returned value cannot carry the assigned record. -/
theorem send_message_returns_no_record :
    (send_message ⟨"alice", "bob", "hi"⟩ ⟨[], [], 100⟩).1
        = Except.ok StatusCode.ok ∧
      (send_message ⟨"alice", "bob", "hi"⟩ ⟨[], [], 100⟩).1
        = (send_message ⟨"alice", "bob", "hi"⟩ ⟨[], [], 200⟩).1 ∧
      (send_message ⟨"alice", "bob", "hi"⟩ ⟨[], [], 100⟩).2.messages
        ≠ (send_message ⟨"alice", "bob", "hi"⟩ ⟨[], [], 200⟩).2.messages :=
  ⟨rfl, rfl, by decide⟩

/-- Claim C2 as amended: on success `send_message` inserts the record —
with the store-assigned identity and the generated timestamp — but returns
only the success status `StatusCode.ok`; the record is not returned. -/
theorem send_message_inserts_and_returns_ok (p : IncomingMessage)
    (s : DbState) :
    ∃ a s1 t s2, get_or_create_user p.author s = (Except.ok a, s1) ∧
      get_or_create_user p.target s1 = (Except.ok t, s2) ∧
      (send_message p s).1 = Except.ok StatusCode.ok ∧
      (send_message p s).2.messages
        = s.messages ++ [⟨nextMessageId s.messages, a.id, t.id, p.text, s.now⟩] := by
  obtain ⟨a, s1, h1⟩ := resolve_ok p.author s
  obtain ⟨t, s2, h2⟩ := resolve_ok p.target s1
  have hf1 := resolve_frame p.author s
  rw [h1] at hf1
  have hf2 := resolve_frame p.target s1
  rw [h2] at hf2
  refine ⟨a, s1, t, s2, h1, h2, ?_, ?_⟩
  · rw [send_message_eq h1 h2]
  · rw [send_message_eq h1 h2]
    show s2.messages ++ [⟨nextMessageId s2.messages, a.id, t.id, p.text, s2.now⟩]
      = s.messages ++ [⟨nextMessageId s.messages, a.id, t.id, p.text, s.now⟩]
    rw [hf2.1, hf1.1, hf2.2.1, hf1.2.1]

/-- Claim C3, counterexample: at the UTC instant 1700000000 (2023-11-14
22:13:20 UTC) the code renders "11/14/2023  5:13PM" — space-padded hour and
uppercase marker — while the claimed `M/D/YYYY H:MMam|pm` rendering would
be "11/14/2023 5:13pm". -/
theorem formatTimestamp_ne_claim :
    formatTimestamp 1700000000 ≠ specFormatClaim 1700000000 := by decide

/-- Claim C3 as amended: every stored UTC timestamp is shifted by the fixed
UTC−5 offset (no daylight saving) and rendered month/day/year
hour:minute marker, with month, day and 12-hour-clock hour space-padded to
width two (no zero-padding), minute zero-padded, and an uppercase `AM`/`PM`
marker. -/
theorem formatTimestamp_eq_amended (t : Int) :
    formatTimestamp t = specFormatAmended t := by
  unfold formatTimestamp specFormatAmended
  dsimp only
  rw [padToWidth_space_eq _ (civil_month_lt_100 _),
    padToWidth_space_eq _ (civil_day_lt_100 _),
    padToWidth_space_eq _ (hour12_lt_100 t),
    padToWidth_zero_eq _ (minuteOf_lt_100 t)]

/-- Claim C8: resolving a non-empty name twice in sequence succeeds both
times and yields the same identity both times. -/
theorem resolve_idempotent (n : String) (s : DbState) (hne : n ≠ "") :
    ∃ u s1, get_or_create_user n s = (Except.ok u, s1) ∧
      (get_or_create_user n s1).1 = Except.ok u := by
  obtain ⟨u, s1, h1, h2⟩ := resolve_twice n s
  exact ⟨u, s1, h1, by rw [h2]⟩

/-- Claim C8 witness at a concrete non-empty name and store. -/
theorem resolve_idempotent_witness :
    "alice" ≠ "" ∧ ∃ u s1,
      get_or_create_user "alice" stWit = (Except.ok u, s1) ∧
        (get_or_create_user "alice" s1).1 = Except.ok u :=
  ⟨by decide, resolve_idempotent "alice" stWit (by decide)⟩

/-- Claim C9: when the initial lookup of a name that exists in the store
fails with any injected store error, `get_or_create_user` discards the
error, attempts the insert of a fresh row with that name (duplicating the
existing one), and returns the re-lookup result — the transient failure is
not surfaced. -/
theorem lookup_error_triggers_insert (n : String) (s : DbState) (u0 : User)
    (e : SqlxError) (rest : List (Option SqlxError))
    (hfound : get_user n s = some u0) :
    (get_or_create_userF n ⟨s, some e :: none :: none :: rest⟩).1
        = Except.ok u0 ∧
      ((get_or_create_userF n ⟨s, some e :: none :: none :: rest⟩).2).db.users
        = s.users ++ [⟨nextUserId s.users, n⟩] := by
  have hlook : get_user n (create_user n s) = some u0 := by
    unfold get_user at hfound
    unfold get_user create_user
    simp only
    rw [List.find?_append, hfound]
    rfl
  constructor <;>
    simp only [get_or_create_userF, get_userF, create_userF, takeFault, hlook]
  all_goals rfl

/-- Claim C9 witness: a store that already holds `alice`, with an IO fault
injected on the first lookup. -/
theorem lookup_error_triggers_insert_witness :
    get_user "alice" stWit = some ⟨1, "alice"⟩ ∧
      ((get_or_create_userF "alice"
            ⟨stWit, some SqlxError.ioError :: none :: none :: []⟩).1
          = Except.ok ⟨1, "alice"⟩ ∧
        ((get_or_create_userF "alice"
            ⟨stWit, some SqlxError.ioError :: none :: none :: []⟩).2).db.users
          = stWit.users ++ [⟨nextUserId stWit.users, "alice"⟩]) :=
  ⟨by decide, lookup_error_triggers_insert "alice" stWit ⟨1, "alice"⟩
    SqlxError.ioError [] (by decide)⟩

/-- Claim C10: the two read handlers never change the messages table; their
only state change is the possible append of user rows carrying the
requested name(s). -/
theorem readers_do_not_write_messages (t me other : String) (s : DbState) :
    ((get_inbox t s).2.messages = s.messages ∧
      ∃ l, (get_inbox t s).2.users = s.users ++ l ∧ ∀ u ∈ l, u.name = t) ∧
    ((get_messages me other s).2.messages = s.messages ∧
      ∃ l, (get_messages me other s).2.users = s.users ++ l ∧
        ∀ u ∈ l, u.name = me ∨ u.name = other) := by
  constructor
  · have hfr := resolve_frame t s
    have hstate : (get_inbox t s).2 = (get_or_create_user t s).2 := by
      unfold get_inbox
      cases hres : get_or_create_user t s with
      | mk r s1 => cases r <;> rfl
    rw [hstate]
    exact ⟨hfr.1, hfr.2.2⟩
  · have hfr1 := resolve_frame me s
    cases hres1 : get_or_create_user me s with
    | mk r1 s1 =>
      rw [hres1] at hfr1
      cases r1 with
      | error e =>
        have hstate : (get_messages me other s).2 = s1 := by
          unfold get_messages
          rw [hres1]
        rw [hstate]
        obtain ⟨hm1, -, l1, hu1, hl1⟩ := hfr1
        exact ⟨hm1, l1, hu1, fun u hu => Or.inl (hl1 u hu)⟩
      | ok u1 =>
        have hfr2 := resolve_frame other s1
        cases hres2 : get_or_create_user other s1 with
        | mk r2 s2 =>
          rw [hres2] at hfr2
          have hstate : (get_messages me other s).2 = s2 := by
            unfold get_messages
            rw [hres1]
            dsimp only
            rw [hres2]
            cases r2 <;> rfl
          rw [hstate]
          obtain ⟨hm1, -, l1, hu1, hl1⟩ := hfr1
          obtain ⟨hm2, -, l2, hu2, hl2⟩ := hfr2
          refine ⟨by rw [hm2, hm1], l1 ++ l2, ?_, ?_⟩
          · rw [hu2, hu1, List.append_assoc]
          · intro u hu
            rcases List.mem_append.mp hu with h | h
            · exact Or.inl (hl1 u h)
            · exact Or.inr (hl2 u h)

/-- Helper: resolving two distinct names on a well-formed store yields
distinct identities. -/
theorem resolve_pair_ne {me other : String} {s : DbState} (hne : me ≠ other)
    (hwf : WF s) {u1 u2 : User} {s1 s2 : DbState}
    (h1 : get_or_create_user me s = (Except.ok u1, s1))
    (h2 : get_or_create_user other s1 = (Except.ok u2, s2)) :
    u1.id ≠ u2.id := by
  have hm1 := resolve_mem_name h1
  have hm2 := resolve_mem_name h2
  have hwf1 : WF s1 := by
    have := wf_resolve me hwf
    rwa [h1] at this
  have hwf2 : WF s2 := by
    have := wf_resolve other hwf1
    rwa [h2] at this
  have hf2 := resolve_frame other s1
  rw [h2] at hf2
  obtain ⟨-, -, l, hu, -⟩ := hf2
  have hu1mem : u1 ∈ s2.users := by
    rw [hu]
    exact List.mem_append_left _ hm1.1
  intro hid
  have heq := List.inj_on_of_nodup_map hwf2.1 hu1mem hm2.1 hid
  apply hne
  rw [← hm1.2, ← hm2.2]
  exact congrArg User.name heq

/-- Claim C5: for distinct request names on a well-formed store, the
conversation result contains no message whose resolved author and target
display names coincide — the final filter removes them. -/
theorem conversation_excludes_equal_names (me other : String) (s : DbState)
    (hne : me ≠ other) (hwf : WF s) :
    ∀ res, (get_messages me other s).1 = Except.ok res →
      ∀ om ∈ res, om.author ≠ om.target := by
  obtain ⟨u1, s1, h1⟩ := resolve_ok me s
  obtain ⟨u2, s2, h2⟩ := resolve_ok other s1
  have hid := resolve_pair_ne hne hwf h1 h2
  intro res hres om hom
  rw [get_messages_eq h1 h2] at hres
  injection hres with hres
  rw [← hres] at hom
  have hb := List.of_mem_filter hom
  simp only [Bool.or_eq_true, beq_iff_eq, bne_iff_ne] at hb
  rcases hb with h | h
  · exact absurd h hid
  · exact h

/-- Claim C5 witness at distinct concrete names and a well-formed store. -/
theorem conversation_excludes_equal_names_witness :
    ("alice" ≠ "bob" ∧ WF stWit) ∧
      (∀ res, (get_messages "alice" "bob" stWit).1 = Except.ok res →
        ∀ om ∈ res, om.author ≠ om.target) :=
  ⟨⟨by decide, by decide⟩,
    conversation_excludes_equal_names "alice" "bob" stWit (by decide) (by decide)⟩

/-- Claim C6: on a well-formed store, the inbox of a name is exactly the
stored messages whose target is that name's resolved identity — none
omitted, none added — translated to display names and ordered
non-decreasing by timestamp. -/
theorem inbox_exact (t : String) (s : DbState) (hwf : WF s) :
    ∃ u s1, get_or_create_user t s = (Except.ok u, s1) ∧
      s1.messages = s.messages ∧
      ∃ core, (get_inbox t s).1 = Except.ok (core.map toOutgoing) ∧
        List.Perm core ((s.messages.filter (fun m => m.target == u.id)).map
          (displayMsg s1.users)) ∧
        core.Pairwise (fun a b => a.timestamp ≤ b.timestamp) := by
  obtain ⟨u, s1, h1⟩ := resolve_ok t s
  have hfr := resolve_frame t s
  rw [h1] at hfr
  have hwf1 : WF s1 := by
    have := wf_resolve t hwf
    rwa [h1] at this
  refine ⟨u, s1, h1, hfr.1, inboxQuery s1 u.id, ?_, ?_, sortTs_sorted _⟩
  · rw [get_inbox_eq h1]
  · unfold inboxQuery
    have hjoin : joinUsers s1.users
        (s1.messages.filter (fun m => m.target == u.id))
        = (s1.messages.filter (fun m => m.target == u.id)).map
          (displayMsg s1.users) := by
      apply joinUsers_eq_map hwf1.1
      intro m hm
      exact hwf1.2 m (List.mem_of_mem_filter hm)
    rw [hjoin, hfr.1]
    exact sortTs_perm _

/-- Claim C6 witness at a concrete name and well-formed store. -/
theorem inbox_exact_witness :
    WF stWit ∧
      (∃ u s1, get_or_create_user "bob" stWit = (Except.ok u, s1) ∧
        s1.messages = stWit.messages ∧
        ∃ core, (get_inbox "bob" stWit).1 = Except.ok (core.map toOutgoing) ∧
          List.Perm core ((stWit.messages.filter
            (fun m => m.target == u.id)).map (displayMsg s1.users)) ∧
          core.Pairwise (fun a b => a.timestamp ≤ b.timestamp)) :=
  ⟨by decide, inbox_exact "bob" stWit (by decide)⟩

/-- Claim C4: on a well-formed store, the self conversation of a name
returns every stored message whose author and target both equal the
resolved identity exactly once — the OR clause does not double it and the
final filter keeps everything. -/
theorem self_conversation_exactly_once (m : String) (s : DbState)
    (hwf : WF s) :
    ∃ u s1 res, get_or_create_user m s = (Except.ok u, s1) ∧
      (get_messages m m s).1 = Except.ok res ∧
      ∀ k, (res.filter (fun om => om.id == k)).length
        = (s.messages.filter (fun x =>
            x.id == k && (x.author == u.id && x.target == u.id))).length := by
  obtain ⟨u, s1, h1, h2⟩ := resolve_twice m s
  have hfr := resolve_frame m s
  rw [h1] at hfr
  have hwf1 : WF s1 := by
    have := wf_resolve m hwf
    rwa [h1] at this
  refine ⟨u, s1, _, h1, by rw [get_messages_eq h1 h2], ?_⟩
  intro k
  have hfil : ((conversationQuery s1 u.id u.id).map toOutgoing).filter
      (fun om => u.id == u.id || om.author != om.target)
      = (conversationQuery s1 u.id u.id).map toOutgoing := by
    rw [List.filter_eq_self]
    intro a ha
    simp
  rw [hfil]
  have hpred : (fun (x : StoredMessage) =>
      (x.author == u.id && x.target == u.id) ||
        (x.author == u.id && x.target == u.id))
      = (fun x => x.author == u.id && x.target == u.id) :=
    funext fun x => Bool.or_self _
  unfold conversationQuery
  rw [hpred]
  have hjoin : joinUsers s1.users
      (s1.messages.filter (fun x => x.author == u.id && x.target == u.id))
      = (s1.messages.filter
          (fun x => x.author == u.id && x.target == u.id)).map
        (displayMsg s1.users) := by
    apply joinUsers_eq_map hwf1.1
    intro x hx
    exact hwf1.2 x (List.mem_of_mem_filter hx)
  rw [hjoin]
  rw [← List.countP_eq_length_filter, ← List.countP_eq_length_filter,
    List.countP_map]
  rw [(sortTs_perm _).countP_eq]
  rw [List.countP_map, List.countP_filter, hfr.1]
  rfl

/-- Claim C4 witness at a concrete name and well-formed store. -/
theorem self_conversation_exactly_once_witness :
    WF stWit ∧
      (∃ u s1 res, get_or_create_user "alice" stWit = (Except.ok u, s1) ∧
        (get_messages "alice" "alice" stWit).1 = Except.ok res ∧
        ∀ k, (res.filter (fun om => om.id == k)).length
          = (stWit.messages.filter (fun x =>
              x.id == k && (x.author == u.id && x.target == u.id))).length) :=
  ⟨by decide, self_conversation_exactly_once "alice" stWit (by decide)⟩

/-- Claim C7: on a well-formed store, the conversation of `me` with `other`
and the conversation of `other` with `me` return the same messages in the
same order. -/
theorem conversation_symmetric (me other : String) (s : DbState)
    (hwf : WF s) :
    (get_messages me other s).1 = (get_messages other me s).1 := by
  by_cases heq : me = other
  · subst heq
    rfl
  have hne2 : other ≠ me := fun h => heq h.symm
  cases hme : get_user me s with
  | some u1 =>
    cases hoth : get_user other s with
    | some u2 =>
      rw [get_messages_eq (resolve_found hme) (resolve_found hoth),
        get_messages_eq (resolve_found hoth) (resolve_found hme)]
      exact congrArg Except.ok (conversation_output_comm s u1.id u2.id)
    | none =>
      have hoth2 : get_user other s = none := hoth
      have hme2 : get_user me (create_user other s) = some u1 := by
        rw [get_user_create_of_ne heq s]
        exact hme
      rw [get_messages_eq (resolve_found hme) (resolve_miss hoth),
        get_messages_eq (resolve_miss hoth) (resolve_found hme2)]
      exact congrArg Except.ok
        (conversation_output_comm (create_user other s) u1.id
          (nextUserId s.users))
  | none =>
    cases hoth : get_user other s with
    | some u2 =>
      have hoth2 : get_user other (create_user me s) = some u2 := by
        rw [get_user_create_of_ne hne2 s]
        exact hoth
      rw [get_messages_eq (resolve_miss hme) (resolve_found hoth2),
        get_messages_eq (resolve_found hoth) (resolve_miss hme)]
      exact congrArg Except.ok
        (conversation_output_comm (create_user me s) (nextUserId s.users)
          u2.id)
    | none =>
      have hoth2 : get_user other (create_user me s) = none := by
        rw [get_user_create_of_ne hne2 s]
        exact hoth
      have hme2 : get_user me (create_user other s) = none := by
        rw [get_user_create_of_ne heq s]
        exact hme
      rw [get_messages_eq (resolve_miss hme) (resolve_miss hoth2),
        get_messages_eq (resolve_miss hoth) (resolve_miss hme2)]
      have hfresh : ∀ x ∈ s.messages, x.author < nextUserId s.users := by
        intro x hx
        obtain ⟨⟨u, hu, hid⟩, -⟩ := hwf.2 x hx
        rw [← hid]
        exact id_lt_nextUserId hu
      have hA1 : ∀ x ∈ (create_user other (create_user me s)).messages,
          x.author ≠ nextUserId s.users :=
        fun x hx => Nat.ne_of_lt (hfresh x hx)
      have hB1 : ∀ x ∈ (create_user other (create_user me s)).messages,
          x.author ≠ nextUserId (create_user me s).users := by
        intro x hx
        rw [nextUserId_create]
        have := hfresh x hx
        omega
      have hA2 : ∀ x ∈ (create_user me (create_user other s)).messages,
          x.author ≠ nextUserId s.users :=
        fun x hx => Nat.ne_of_lt (hfresh x hx)
      have hB2 : ∀ x ∈ (create_user me (create_user other s)).messages,
          x.author ≠ nextUserId (create_user other s).users := by
        intro x hx
        rw [nextUserId_create]
        have := hfresh x hx
        omega
      rw [conversationQuery_fresh _ _ _ hA1 hB1,
        conversationQuery_fresh _ _ _ hA2 hB2]
      rfl

/-- Claim C7 witness at concrete names and a well-formed store. -/
theorem conversation_symmetric_witness :
    WF stWit ∧ (get_messages "alice" "bob" stWit).1
      = (get_messages "bob" "alice" stWit).1 :=
  ⟨by decide, conversation_symmetric "alice" "bob" stWit (by decide)⟩

end MessagesBackend
